import Mathlib

/-!
Verification of the ultidork proxy pipeline core against its specification.

The definitions below are shallow embeddings of the Python source:
* `code/rapidproxyscan.py` — `ProxyTester.test_proxy`, `OptimizerIntegration.post_test_processing`,
  `ProxyScanManager.parse_proxy_list`, `ProxyScanManager.test_proxy_worker`,
  `ProxyScanManager.start_scanning_loop`, `ProxyScanManager.export_results`;
* `code/rapidproxyscanupgrades.py` — `CustomEndpointManager.update_endpoint_health`,
  `ViewbotFormatter.categorize_proxy`;
* `code/config/endpoints.py` and `code/proxy_manager.py` — `ProxyManager.add_proxy`,
  `ProxyManager.get_proxy`.

Python floats are modelled as `Rat` (all arithmetic used is exact), machine time stamps as
`Int`, dictionaries as association lists or total functions, and network effects as an
explicit outcome datatype consumed by the pure response-interpretation logic.
-/

/-! ## ProxyTester (rapidproxyscan.py lines 76-189) -/

/-- Embeds the JSON body the verification endpoint returns: the four fields
`ProxyTester.test_proxy` reads via `json_data.get(...)`.  A missing key is `none`. -/
structure RespJson where
  status : Option String
  anonymity_level : Option String
  connecting_ip : Option String
  client_ip_from_headers : Option String
deriving Repr, DecidableEq

/-- Embeds the result dictionary built by `ProxyTester.test_proxy` (lines 110-119);
the purely diagnostic `description` and `raw_json_response` fields are omitted. -/
structure TestResult where
  is_usable : Bool
  latency_ms : Rat
  security_level : String
  speed_rating : String
  error : Option String
deriving Repr, DecidableEq

/-- Embeds Python truthiness of an optional string: `None` and `""` are falsy. -/
def truthyOpt : Option String → Bool
  | some s => !s.isEmpty
  | none => false

/-- Embeds `ProxyTester._determine_speed` (lines 85-95). -/
def determine_speed (latency_ms : Rat) : String :=
  if latency_ms < 200 then "fast"
  else if latency_ms < 800 then "medium"
  else "slow"

/-- Embeds Python `str.lower()` as a character-wise map, which is what it does on the
ASCII level labels the endpoint contract uses. -/
def strLower (s : String) : String :=
  String.mk (s.data.map Char.toLower)

/-- Embeds the anonymity-level chain of `ProxyTester.test_proxy` (lines 142-153):
`json_data.get("anonymity_level", "unknown").lower()` mapped to a security label. -/
def classify_security (anonymity_level : Option String) : String :=
  let anon := strLower (anonymity_level.getD "unknown")
  if anon = "elite" then "secure as hecc"
  else if anon = "anonymous" then "medium"
  else if anon = "transparent" then "low"
  else "unknown"

/-- Embeds the leak check of `ProxyTester.test_proxy` (lines 159-165): when both IP
fields are truthy and differ, a classification other than `"low"` is replaced by
`"low (IP leaked)"`. -/
def apply_leak_override (security_level : String)
    (client_ip_from_headers connecting_ip : Option String) : String :=
  if truthyOpt client_ip_from_headers && truthyOpt connecting_ip
      && (client_ip_from_headers != connecting_ip) then
    if security_level ≠ "low" then "low (IP leaked)" else security_level
  else security_level

/-- Embeds what the network did during one probe, i.e. which control path of
`ProxyTester.test_proxy` runs: a 200 response with parsed JSON (`none` models a falsy
body such as `null`), an `aiohttp.ClientError`, a `json.JSONDecodeError`, an
`asyncio.TimeoutError`, or any other exception.  All exception paths are caught by
the function (lines 170-186), so the embedding is total. -/
inductive FetchOutcome
  | ok (json : Option RespJson) (latency_ms : Rat)
  | clientError (msg : String)
  | jsonError (msg : String)
  | timeout
  | otherError (msg : String)

/-- Embeds `ProxyTester.test_proxy` (lines 97-189) as a pure function of the probe
outcome.  On the `ok` path the latency is recorded, and the success branch runs only
when the JSON is truthy with `status == "success"`; every exception branch returns the
initial result values, the timeout branch additionally setting `speed_rating := "slow"`. -/
def test_proxy : FetchOutcome → TestResult
  | .ok json latency_ms =>
    let base : TestResult :=
      { is_usable := false, latency_ms := latency_ms, security_level := "unknown",
        speed_rating := "unknown", error := none }
    match json with
    | some j =>
      if j.status = some "success" then
        { base with
            is_usable := true,
            security_level := apply_leak_override (classify_security j.anonymity_level)
              j.client_ip_from_headers j.connecting_ip,
            speed_rating := determine_speed latency_ms }
      else base
    | none => base
  | .clientError msg =>
    { is_usable := false, latency_ms := -1, security_level := "unknown",
      speed_rating := "unknown", error := some msg }
  | .jsonError msg =>
    { is_usable := false, latency_ms := -1, security_level := "unknown",
      speed_rating := "unknown", error := some msg }
  | .timeout =>
    { is_usable := false, latency_ms := -1, security_level := "unknown",
      speed_rating := "slow", error := some "timeout" }
  | .otherError msg =>
    { is_usable := false, latency_ms := -1, security_level := "unknown",
      speed_rating := "unknown", error := some msg }

/-! ## Reliability update (rapidproxyscan.py, `OptimizerIntegration.post_test_processing`,
lines 309-323) -/

/-- Embeds the reliability adjustment of `OptimizerIntegration.post_test_processing`
(lines 318-322): `min(100, r + 5)` on success, `max(0, r - 10)` on failure. -/
def post_test_reliability (reliability : Rat) (success : Bool) : Rat :=
  if success then min 100 (reliability + 5) else max 0 (reliability - 10)

/-! ## Pool accessors (config/endpoints.py and proxy_manager.py) -/

namespace ConfigEndpoints

/-- Embeds `ProxyManager.add_proxy` of `config/endpoints.py` (lines 32-40): append the
address only when it is absent and the pool is below `max_proxies`; otherwise the pool
is returned unchanged. -/
def add_proxy (pool : List String) (max_proxies : Nat) (proxy_address : String) :
    List String :=
  if proxy_address ∉ pool ∧ pool.length < max_proxies then pool ++ [proxy_address]
  else pool

/-- Embeds `ProxyManager.get_proxy` of `config/endpoints.py` (lines 47-52): `None` on an
empty pool, otherwise `random.choice(self.pool)`; the random draw is modelled by an
arbitrary natural `k` reduced modulo the pool size. -/
def get_proxy (pool : List String) (k : Nat) : Option String :=
  if pool.isEmpty then none else pool.get? (k % pool.length)

end ConfigEndpoints

namespace CoreProxyManager

/-- Embeds `ProxyManager.get_proxy` of `proxy_manager.py` (lines 39-44): a random pool
element when the pool is truthy, `None` otherwise; the random draw is modelled by an
arbitrary natural `k` reduced modulo the pool size. -/
def get_proxy (pool : List String) (k : Nat) : Option String :=
  if pool ≠ [] then pool.get? (k % pool.length) else none

end CoreProxyManager

/-! ## Source parsing (rapidproxyscan.py, `ProxyScanManager.parse_proxy_list`,
lines 576-607) -/

/-- Embeds Python `str.strip()` at the character-list level. -/
def stripChars (cs : List Char) : List Char :=
  ((cs.dropWhile Char.isWhitespace).reverse.dropWhile Char.isWhitespace).reverse

/-- Embeds Python `str.strip()`. -/
def stripStr (s : String) : String :=
  String.mk (stripChars s.toList)

/-- Embeds one regex step `\d{1,3}` followed by the separator `sep`: since a digit can
never equal the separator, the greedy bounded repetition matches exactly when the
maximal digit run has length 1 to 3 and is followed by `sep`. -/
def octetThen (sep : Char) (cs : List Char) : Option (List Char × List Char) :=
  let ds := cs.takeWhile Char.isDigit
  match cs.dropWhile Char.isDigit with
  | c :: rest =>
    if c = sep ∧ 1 ≤ ds.length ∧ ds.length ≤ 3 then some (ds, rest) else none
  | [] => none

/-- Embeds Python `int` on a digit string. -/
def digitsToNat (ds : List Char) : Nat :=
  ds.foldl (fun n c => n * 10 + (c.toNat - '0'.toNat)) 0

/-- Embeds `re.match(r'(\d{1,3}\.\d{1,3}\.\d{1,3}\.\d{1,3}):(\d+)', s)` followed by
`(match.group(1), int(match.group(2)))` as used in `parse_proxy_list`: a prefix match,
so arbitrary text may follow the port digits. -/
def matchIpPort (s : String) : Option (String × Nat) := do
  let (d1, r1) ← octetThen '.' s.toList
  let (d2, r2) ← octetThen '.' r1
  let (d3, r3) ← octetThen '.' r2
  let (d4, r4) ← octetThen ':' r3
  let p := r4.takeWhile Char.isDigit
  if p.length = 0 then none
  else some (String.mk (d1 ++ '.' :: d2 ++ '.' :: d3 ++ '.' :: d4), digitsToNat p)

/-- Embeds the inner tabular pass of `parse_proxy_list` (lines 594-606): for every
`<td>` text of the whole document, append the matched pair unless it is already in the
accumulated list.  `tds` models `[td.get_text(strip=True) for td in soup.find_all('td')]`. -/
def htmlScanFold (tds : List String) (acc : List (String × Nat)) : List (String × Nat) :=
  tds.foldl
    (fun acc2 text =>
      match matchIpPort text with
      | some hp => if hp ∈ acc2 then acc2 else acc2 ++ [hp]
      | none => acc2)
    acc

/-- Embeds the per-line body of the `parse_proxy_list` loop (lines 584-606): a line whose
stripped text prefix-matches `IPv4:port` is appended unconditionally; any other line
triggers the tabular pass over the whole content. -/
def parseLineStep (tds : List String) (acc : List (String × Nat)) (line : String) :
    List (String × Nat) :=
  match matchIpPort (stripStr line) with
  | some hp => acc ++ [hp]
  | none => htmlScanFold tds acc

/-- Embeds `ProxyScanManager.parse_proxy_list` (lines 576-607).  The raw content is
modelled by its two views the code consumes: `content.splitlines()` and the `<td>` texts
of the whole content. -/
def parse_proxy_list (lines tds : List String) : List (String × Nat) :=
  lines.foldl (parseLineStep tds) []

/-! ## Categorizer (rapidproxyscanupgrades.py, `ViewbotFormatter.categorize_proxy`,
lines 366-416) -/

/-- Embeds the proxy dictionary consumed by `categorize_proxy`: `host` and `port` are
indexed directly (mandatory), the remaining fields are read with `.get` defaults. -/
structure PxDict where
  host : String
  port : Nat
  avg_response_time : Option Rat
  reliability : Option Rat
  anonymity : Option String
deriving Repr, DecidableEq

/-- Embeds `f"{proxy['host']}:{proxy['port']}"`. -/
def pxAddress (p : PxDict) : String := p.host ++ ":" ++ toString p.port

/-- Embeds Python `set.add` on a set modelled as a duplicate-free list. -/
def listInsert (a : String) (l : List String) : List String :=
  if a ∈ l then l else l ++ [a]

/-- Embeds the mutable state of `ViewbotFormatter` (lines 335-364) touched by
`categorize_proxy`: the three category maps, the persistence counter (a `defaultdict`
modelled as a total function with default 0), the persistent set and the fast-track
set.  The `proxy_history` bookkeeping (wall-clock `last_seen` stamps) is omitted. -/
structure VFState where
  ultra : List PxDict
  fast : List PxDict
  medium : List PxDict
  slow : List PxDict
  platinum : List PxDict
  gold : List PxDict
  silver : List PxDict
  bronze : List PxDict
  elite : List PxDict
  anonymous : List PxDict
  transparent : List PxDict
  persistence_counter : String → Nat
  persistent_proxies : List String
  fast_track_proxies : List String

/-- Embeds the initial `ViewbotFormatter` state built in `__init__` (lines 335-364). -/
def viewbotInit : VFState :=
  { ultra := [], fast := [], medium := [], slow := [],
    platinum := [], gold := [], silver := [], bronze := [],
    elite := [], anonymous := [], transparent := [],
    persistence_counter := fun _ => 0,
    persistent_proxies := [], fast_track_proxies := [] }

/-- Embeds the speed-categorization block of `categorize_proxy` (lines 368-377). -/
def speedCategorize (st : VFState) (p : PxDict) : VFState :=
  let response_time := p.avg_response_time.getD 1000
  if response_time < 200 then { st with ultra := st.ultra ++ [p] }
  else if response_time < 500 then { st with fast := st.fast ++ [p] }
  else if response_time < 1000 then { st with medium := st.medium ++ [p] }
  else { st with slow := st.slow ++ [p] }

/-- Embeds the reliability-categorization block of `categorize_proxy` (lines 379-388). -/
def reliabilityCategorize (st : VFState) (p : PxDict) : VFState :=
  let reliability := p.reliability.getD 0
  if reliability ≥ 100 then { st with platinum := st.platinum ++ [p] }
  else if reliability ≥ 90 then { st with gold := st.gold ++ [p] }
  else if reliability ≥ 75 then { st with silver := st.silver ++ [p] }
  else { st with bronze := st.bronze ++ [p] }

/-- Embeds the stealth-categorization block of `categorize_proxy` (lines 390-397):
the code compares against `"high"` and `"medium"`, everything else lands in the
transparent bucket. -/
def stealthCategorize (st : VFState) (p : PxDict) : VFState :=
  let anonymity := p.anonymity.getD "unknown"
  if anonymity = "high" then { st with elite := st.elite ++ [p] }
  else if anonymity = "medium" then { st with anonymous := st.anonymous ++ [p] }
  else { st with transparent := st.transparent ++ [p] }

/-- Embeds the persistence-tracking block of `categorize_proxy` (lines 399-407): the
counter is bumped; at 3 or more the address joins the persistent set, and with
reliability at least 85 also the fast-track set. -/
def persistenceTrack (st : VFState) (p : PxDict) : VFState :=
  let reliability := p.reliability.getD 0
  let address := pxAddress p
  let cnt := st.persistence_counter address + 1
  let st4 :=
    { st with persistence_counter := fun x => if x = address then cnt else st.persistence_counter x }
  if cnt ≥ 3 then
    let st5 := { st4 with persistent_proxies := listInsert address st4.persistent_proxies }
    if reliability ≥ 85 then
      { st5 with fast_track_proxies := listInsert address st5.fast_track_proxies }
    else st5
  else st4

/-- Embeds `ViewbotFormatter.categorize_proxy` (lines 366-416): the four blocks in
source order (its trailing `proxy_history` write is not modelled). -/
def categorize_proxy (st : VFState) (p : PxDict) : VFState :=
  persistenceTrack (stealthCategorize (reliabilityCategorize (speedCategorize st p) p) p) p

/-! ## Endpoint health (rapidproxyscanupgrades.py,
`CustomEndpointManager.update_endpoint_health`, lines 151-164) -/

/-- Embeds one entry of `endpoint_stats`, the per-endpoint health record
`{"success": 0, "failure": 0, "avg_time": 0}`. -/
structure EndpointStats where
  success : Nat
  failure : Nat
  avg_time : Rat
deriving Repr, DecidableEq

/-- Embeds `CustomEndpointManager.update_endpoint_health` (lines 151-164): a success
increments the success count and folds the sample into the rolling average
`(avg * 19 + sample) / 20` (a first sample is taken directly); a failure only
increments the failure count. -/
def update_endpoint_health (st : EndpointStats) (success : Bool) (response_time : Rat) :
    EndpointStats :=
  if success then
    if st.avg_time = 0 then { st with success := st.success + 1, avg_time := response_time }
    else
      { st with success := st.success + 1,
                avg_time := (st.avg_time * 19 + response_time) / 20 }
  else { st with failure := st.failure + 1 }

/-! ## Worker admission (rapidproxyscan.py, `ProxyScanManager.test_proxy_worker`,
lines 609-635) -/

/-- Embeds the verified-set effect of one dequeued test in `test_proxy_worker`
(lines 620-627): on a usable verdict the address is added to `verified_proxies`
(`set.add`), otherwise the set is untouched. -/
def worker_apply_verdict (verified : List String) (address : String) (usable : Bool) :
    List String :=
  if usable then listInsert address verified else verified

/-- Embeds the admission decision the code actually computes for one proxy over a
sequence of validation-round verdicts: membership in the verified set after
`test_proxy_worker` has processed each round.  The `validation_mode` argument mirrors
the configuration value stored in `ProxyScanManager.__init__` (line 389); as in the
source, the worker never consults it. -/
def worker_admits (validation_mode : String) (address : String) (rounds : List Bool) :
    Bool :=
  (rounds.foldl (fun v usable => worker_apply_verdict v address usable) []).contains address

/-! ## Pool-manager state machine (rapidproxyscan.py, `ProxyScanManager`) -/

/-- Embeds the fields of `ProxyInfo` (lines 196-232) that the pool-manager operations
read or write, together with ghost history fields (`last_test_usable`, `ever_usable`)
recording what the most recent / any completed test reported; the ghost fields are
written only by the verdict operation and exist to state invariants. -/
structure ProxyRec where
  is_usable : Bool
  last_tested : Int
  last_test_usable : Bool
  ever_usable : Bool
deriving Repr, DecidableEq

/-- Embeds the `ProxyInfo.__init__` defaults relevant to the pool manager; the
registration path then stamps `last_tested` (line 566). -/
def newProxyRec (now : Int) : ProxyRec :=
  { is_usable := false, last_tested := now, last_test_usable := false, ever_usable := false }

/-- Embeds a lookup in the `self.proxies` dictionary, modelled as an association list
keyed by `"host:port"` addresses. -/
def lookupRec : List (String × ProxyRec) → String → Option ProxyRec
  | [], _ => none
  | kv :: rest, a => if kv.1 = a then some kv.2 else lookupRec rest a

/-- Embeds an in-place mutation of the record stored under an address (Python mutates
the shared `ProxyInfo` object). -/
def updateRec : List (String × ProxyRec) → String → ProxyRec → List (String × ProxyRec)
  | [], _, _ => []
  | kv :: rest, a, r => if kv.1 = a then (a, r) :: rest else kv :: updateRec rest a r

/-- Embeds the mutable state of `ProxyScanManager` the claims quantify over: the
registry `self.proxies`, the verified set `self.verified_proxies` and the test queue
`self.proxy_test_queue` (addresses stand for the queued `ProxyInfo` references). -/
structure ScanState where
  proxies : List (String × ProxyRec)
  verified : List String
  queue : List String
deriving Repr, DecidableEq

/-- Embeds the freshly constructed manager: empty registry, empty verified set, empty
queue (lines 411-415). -/
def scanInit : ScanState :=
  { proxies := [], verified := [], queue := [] }

/-- Embeds the four registry-touching operations of the scanning loop:
registration of a parsed pair (`fetch_proxy_lists`, lines 560-567), one worker
dequeue-and-verdict (`test_proxy_worker`, lines 609-635, including the
`post_test_processing` stamp of `last_tested`), one requeue scan
(`start_scanning_loop`, lines 663-669), and one export followed by
`verified_proxies.clear()` (lines 673-676). -/
inductive ScanOp
  | register (address : String) (now : Int)
  | processNext (usable : Bool) (now : Int)
  | requeueScan (now : Int)
  | exportClear
deriving Repr, DecidableEq

/-- Embeds the requeue condition of `start_scanning_loop` (line 666): the refresh
interval has elapsed, or the proxy is currently not usable. -/
def staleRec (interval now : Int) (r : ProxyRec) : Bool :=
  (now - r.last_tested ≥ interval) || !r.is_usable

/-- Embeds the per-record effect of the requeue scan (lines 667-669): a requeued proxy
is stamped as queued and its usability reset. -/
def requeueRec (interval now : Int) (r : ProxyRec) : ProxyRec :=
  if staleRec interval now r then { r with last_tested := now, is_usable := false } else r

/-- Embeds one `ScanOp` on the manager state; `interval` is
`proxy_refresh_min_interval`.  Registration adds an unseen address to the registry and
the queue; a verdict updates the dequeued record, adds the address to the verified set
exactly when the verdict was usable, and leaves a failing proxy in the verified set
untouched, as the worker does; the requeue scan re-enqueues every stale-or-unusable
record; export clears the verified set. -/
def scanStep (interval : Int) (s : ScanState) : ScanOp → ScanState
  | .register address now =>
    if (lookupRec s.proxies address).isSome then s
    else
      { s with proxies := s.proxies ++ [(address, newProxyRec now)],
               queue := s.queue ++ [address] }
  | .processNext usable now =>
    match s.queue with
    | [] => s
    | address :: rest =>
      match lookupRec s.proxies address with
      | none => { s with queue := rest }
      | some r =>
        let r' : ProxyRec :=
          { is_usable := usable, last_tested := now, last_test_usable := usable,
            ever_usable := r.ever_usable || usable }
        { proxies := updateRec s.proxies address r',
          verified := if usable then listInsert address s.verified else s.verified,
          queue := rest }
  | .requeueScan now =>
    { s with
        proxies := s.proxies.map (fun kv => (kv.1, requeueRec interval now kv.2)),
        queue := s.queue ++ (s.proxies.filter (fun kv => staleRec interval now kv.2)).map Prod.fst }
  | .exportClear => { s with verified := [] }

/-- Embeds a run of the scanning loop as a fold of operations from the initial state. -/
def scanRun (interval : Int) (ops : List ScanOp) : ScanState :=
  ops.foldl (scanStep interval) scanInit

/-- Embeds the export snapshot of `export_results` (line 497): the verified addresses
whose registry record is currently usable. -/
def export_results (s : ScanState) : List String :=
  s.verified.filter (fun a =>
    match lookupRec s.proxies a with
    | some r => r.is_usable
    | none => false)

/-! ## Helper lemmas -/

lemma post_test_reliability_bounds (r : Rat) (b : Bool) (h0 : 0 ≤ r) (h1 : r ≤ 100) :
    0 ≤ post_test_reliability r b ∧ post_test_reliability r b ≤ 100 := by
  cases b
  · unfold post_test_reliability
    simp only [Bool.false_eq_true, if_false]
    exact ⟨le_max_left 0 _, max_le (by norm_num) (by linarith)⟩
  · unfold post_test_reliability
    simp only [if_true]
    exact ⟨le_min (by norm_num) (by linarith), min_le_left _ _⟩

lemma test_proxy_success_security (j : RespJson) (lat : Rat)
    (h : j.status = some "success") :
    (test_proxy (.ok (some j) lat)).security_level =
      apply_leak_override (classify_security j.anonymity_level)
        j.client_ip_from_headers j.connecting_ip := by
  simp [test_proxy, h]

lemma apply_leak_override_leaky (sec : String) (c k : Option String)
    (hc : truthyOpt c = true) (hk : truthyOpt k = true) (hne : c ≠ k) :
    apply_leak_override sec c k = if sec = "low" then "low" else "low (IP leaked)" := by
  unfold apply_leak_override
  have hb : (c != k) = true := bne_iff_ne.mpr hne
  rw [hc, hk, hb]
  simp only [Bool.and_self, Bool.true_and, if_true]
  by_cases hs : sec = "low" <;> simp [hs]

/-! ## Claim theorems -/

/-- C1: the spec claims `[fail, success, success]` is admitted under `majority` and
`any` but rejected under `all`, and `[fail, fail, success]` is admitted only under
`any`.  The code's admission (membership in the verified set left by
`test_proxy_worker`) admits both sequences under every mode: `validation_mode` is
stored but never consulted, so a single successful round always admits.  This theorem
evaluates the code at the failing inputs: mode `"all"` admits `[fail, success,
success]` and mode `"majority"` admits `[fail, fail, success]`, both contradicting the
claim; the final conjunct shows the decision is independent of the mode. -/
theorem C1_admission_ignores_validation_mode :
    worker_admits "all" "1.2.3.4:80" [false, true, true] = true ∧
    worker_admits "majority" "1.2.3.4:80" [false, false, true] = true ∧
    worker_admits "any" "1.2.3.4:80" [false, false, true] = true ∧
    (∀ (m₁ m₂ address : String) (rounds : List Bool),
      worker_admits m₁ address rounds = worker_admits m₂ address rounds) :=
  ⟨by decide, by decide, by decide, fun _ _ _ _ => rfl⟩

/-- C2 counterexample: a successful probe whose endpoint reports `transparent` and
whose headers leak a client IP different from the connecting IP is classified `"low"`,
not the leaked-low label `"low (IP leaked)"` — the override at lines 163-164 rewrites
the classification only when it is not already `"low"`.  So the claim that every
leaky probe is forced to the leaked-low classification fails at this input. -/
theorem C2_counterexample :
    (test_proxy (.ok (some
        { status := some "success", anonymity_level := some "transparent",
          connecting_ip := some "203.0.113.7",
          client_ip_from_headers := some "198.51.100.9" }) 100)).security_level
      = "low" ∧
    ("low" : String) ≠ "low (IP leaked)" ∧
    truthyOpt (some "198.51.100.9") = true ∧
    (some "198.51.100.9" : Option String) ≠ some "203.0.113.7" :=
  ⟨by decide, by decide, rfl, by decide⟩

/-- C2 amended: for every successful probe whose response carries a truthy
`client_ip_from_headers` and a truthy `connecting_ip` that differ, the security
classification is never the secure (elite) tier and never `"medium"`: it is forced
into the low tier, specifically `"low (IP leaked)"` unless the endpoint-reported
classification was already `"low"` (a `transparent` report), in which case it stays
`"low"`. -/
theorem C2_leak_override_amended : ∀ (j : RespJson) (lat : Rat),
    j.status = some "success" →
    truthyOpt j.client_ip_from_headers = true →
    truthyOpt j.connecting_ip = true →
    j.client_ip_from_headers ≠ j.connecting_ip →
    (test_proxy (.ok (some j) lat)).security_level ≠ "secure as hecc" ∧
    (test_proxy (.ok (some j) lat)).security_level ≠ "medium" ∧
    ((test_proxy (.ok (some j) lat)).security_level = "low" ∨
      (test_proxy (.ok (some j) lat)).security_level = "low (IP leaked)") ∧
    (classify_security j.anonymity_level = "low" →
      (test_proxy (.ok (some j) lat)).security_level = "low") ∧
    (classify_security j.anonymity_level ≠ "low" →
      (test_proxy (.ok (some j) lat)).security_level = "low (IP leaked)") := by
  intro j lat hst hc hk hne
  rw [test_proxy_success_security j lat hst,
      apply_leak_override_leaky _ _ _ hc hk hne]
  by_cases hlow : classify_security j.anonymity_level = "low"
  · rw [if_pos hlow]
    exact ⟨by decide, by decide, Or.inl rfl, fun _ => rfl, fun h => absurd hlow h⟩
  · rw [if_neg hlow]
    exact ⟨by decide, by decide, Or.inr rfl, fun h => absurd h hlow, fun _ => rfl⟩

/-- C2 amended witness: an elite-reporting probe with a divergent leaked header IP is
classified `"low (IP leaked)"`. -/
theorem C2_leak_override_amended_witness :
    truthyOpt (some "198.51.100.9") = true ∧
    (test_proxy (.ok (some
        { status := some "success", anonymity_level := some "elite",
          connecting_ip := some "203.0.113.7",
          client_ip_from_headers := some "198.51.100.9" }) 150)).security_level
      = "low (IP leaked)" :=
  ⟨rfl, (C2_leak_override_amended
      { status := some "success", anonymity_level := some "elite",
        connecting_ip := some "203.0.113.7",
        client_ip_from_headers := some "198.51.100.9" } 150
      rfl rfl rfl (by decide)).2.2.2.2 (by decide)⟩

/-- C3: the reliability score is changed only by the fixed clamped deltas of
`post_test_processing` — `min(100, r + 5)` on success and `max(0, r - 10)` on
failure — and any sequence of probe outcomes keeps it within `[0, 100]`. -/
theorem C3_reliability_bound : ∀ (outcomes : List Bool) (r : Rat),
    0 ≤ r → r ≤ 100 →
    (post_test_reliability r true = min 100 (r + 5) ∧
      post_test_reliability r false = max 0 (r - 10)) ∧
    0 ≤ outcomes.foldl post_test_reliability r ∧
    outcomes.foldl post_test_reliability r ≤ 100 := by
  intro outcomes
  induction outcomes with
  | nil => exact fun r h0 h1 => ⟨⟨rfl, rfl⟩, h0, h1⟩
  | cons b bs ih =>
    intro r h0 h1
    have hb := post_test_reliability_bounds r b h0 h1
    exact ⟨⟨rfl, rfl⟩, (ih (post_test_reliability r b) hb.1 hb.2).2⟩

/-- C3 witness: starting from reliability 50, the outcome sequence
success, failure, success, failure, failure stays within the bounds. -/
theorem C3_reliability_bound_witness :
    (0 : Rat) ≤ 50 ∧ (50 : Rat) ≤ 100 ∧
    (0 ≤ [true, false, true, false, false].foldl post_test_reliability 50 ∧
      [true, false, true, false, false].foldl post_test_reliability 50 ≤ 100) :=
  ⟨by norm_num, by norm_num,
    (C3_reliability_bound [true, false, true, false, false] 50
      (by norm_num) (by norm_num)).2⟩

/-- C5 counterexample: on an `aiohttp.ClientError` (a non-timeout transport failure)
the returned verdict keeps the initial speed rating `"unknown"` — the value
`"failed"` claimed by the spec is never assigned anywhere in `test_proxy`. -/
theorem C5_counterexample :
    (test_proxy (.clientError "Cannot connect to host")).speed_rating = "unknown" ∧
    ("unknown" : String) ≠ "failed" :=
  ⟨rfl, by decide⟩

/-- C5 amended: a probe failing at the transport level returns `is_usable = false`
without raising (the embedding is a total function over all outcome paths); the speed
rating is `"slow"` on a timeout and stays at its initial `"unknown"` on any other
transport failure. -/
theorem C5_transport_failure_amended : ∀ msg : String,
    (test_proxy .timeout).is_usable = false ∧
    (test_proxy .timeout).speed_rating = "slow" ∧
    (test_proxy (.clientError msg)).is_usable = false ∧
    (test_proxy (.clientError msg)).speed_rating = "unknown" :=
  fun _ => ⟨rfl, rfl, rfl, rfl⟩

/-- C8 counterexample: with a pool already at the configured maximum, registering a
new candidate leaves the pool unchanged — the candidate is dropped, but no existing
entry is evicted (least-reliable or otherwise; the pool stores bare address strings
and `add_proxy` contains no eviction path). -/
theorem C8_counterexample :
    ConfigEndpoints.add_proxy ["http://10.0.0.1:8080", "http://10.0.0.2:8080"] 2
        "http://10.0.0.3:8080"
      = ["http://10.0.0.1:8080", "http://10.0.0.2:8080"] ∧
    "http://10.0.0.3:8080" ∉
      ConfigEndpoints.add_proxy ["http://10.0.0.1:8080", "http://10.0.0.2:8080"] 2
        "http://10.0.0.3:8080" ∧
    "http://10.0.0.1:8080" ∈
      ConfigEndpoints.add_proxy ["http://10.0.0.1:8080", "http://10.0.0.2:8080"] 2
        "http://10.0.0.3:8080" ∧
    "http://10.0.0.2:8080" ∈
      ConfigEndpoints.add_proxy ["http://10.0.0.1:8080", "http://10.0.0.2:8080"] 2
        "http://10.0.0.3:8080" := by
  decide

/-- C8 amended: registration never grows the pool beyond the configured maximum, and
when the pool is already at (or above) the maximum the new candidate is simply
dropped with the pool returned unchanged — no entry is evicted. -/
theorem C8_capacity_amended : ∀ (pool : List String) (mx : Nat) (addr : String),
    (pool.length ≤ mx → (ConfigEndpoints.add_proxy pool mx addr).length ≤ mx) ∧
    (mx ≤ pool.length → ConfigEndpoints.add_proxy pool mx addr = pool) := by
  intro pool mx addr
  refine ⟨fun h => ?_, fun h => ?_⟩
  · unfold ConfigEndpoints.add_proxy
    split
    · next hc =>
      simp only [List.length_append, List.length_cons, List.length_nil]
      omega
    · exact h
  · unfold ConfigEndpoints.add_proxy
    split
    · next hc => exact absurd hc.2 (not_lt.mpr h)
    · rfl

/-- C8 amended witness: a one-element pool at maximum 1 drops a new candidate and
stays within bounds. -/
theorem C8_capacity_amended_witness :
    (["http://10.0.0.1:8080"].length ≤ 1 ∧
      (ConfigEndpoints.add_proxy ["http://10.0.0.1:8080"] 1 "http://10.0.0.9:8080").length ≤ 1) ∧
    (1 ≤ ["http://10.0.0.1:8080"].length ∧
      ConfigEndpoints.add_proxy ["http://10.0.0.1:8080"] 1 "http://10.0.0.9:8080"
        = ["http://10.0.0.1:8080"]) :=
  ⟨⟨by decide,
      (C8_capacity_amended ["http://10.0.0.1:8080"] 1 "http://10.0.0.9:8080").1 (by decide)⟩,
    ⟨by decide,
      (C8_capacity_amended ["http://10.0.0.1:8080"] 1 "http://10.0.0.9:8080").2 (by decide)⟩⟩

/-- C9 counterexample: a failed sample does not fold into the smoothed latency — for
the endpoint record with average 100, a failed probe of 500 ms leaves the average at
100 whereas the claimed update law would give `(19 * 100 + 500) / 20 = 120`. -/
theorem C9_counterexample :
    (update_endpoint_health ⟨1, 0, 100⟩ false 500).avg_time = 100 ∧
    ((100 : Rat) * 19 + 500) / 20 ≠ 100 := by
  refine ⟨rfl, by norm_num⟩

/-- C9 amended: only successful samples update the exponentially-smoothed latency —
with weight 1/20, `new = (19 * old + sample) / 20`, once an initial sample exists (a
first sample is taken directly); a failed sample leaves the average unchanged and only
increments the failure count. -/
theorem C9_latency_smoothing_amended : ∀ (st : EndpointStats) (rt : Rat),
    (st.avg_time ≠ 0 →
      (update_endpoint_health st true rt).avg_time = (st.avg_time * 19 + rt) / 20) ∧
    (st.avg_time = 0 → (update_endpoint_health st true rt).avg_time = rt) ∧
    (update_endpoint_health st true rt).success = st.success + 1 ∧
    (update_endpoint_health st false rt).avg_time = st.avg_time ∧
    (update_endpoint_health st false rt).failure = st.failure + 1 := by
  intro st rt
  refine ⟨fun h => ?_, fun h => ?_, ?_, rfl, rfl⟩
  · simp [update_endpoint_health, h]
  · simp [update_endpoint_health, h]
  · unfold update_endpoint_health
    rw [if_pos rfl]
    split <;> rfl

/-- C9 amended witness: a success folds the sample into a nonzero average with weight
1/20, and a first success sets the average directly. -/
theorem C9_latency_smoothing_amended_witness :
    ((200 : Rat) ≠ 0 ∧
      (update_endpoint_health ⟨3, 1, 200⟩ true 100).avg_time = ((200 : Rat) * 19 + 100) / 20) ∧
    ((0 : Rat) = 0 ∧ (update_endpoint_health ⟨0, 0, 0⟩ true 100).avg_time = 100) :=
  ⟨⟨by norm_num, (C9_latency_smoothing_amended ⟨3, 1, 200⟩ 100).1 (by norm_num)⟩,
    ⟨rfl, (C9_latency_smoothing_amended ⟨0, 0, 0⟩ 100).2.1 rfl⟩⟩

/-- C10: both pool accessors return `None` exactly when the pool is empty, and on a
nonempty pool return an element of it; both embeddings are total functions, matching
the guarded code paths that never raise. -/
theorem C10_get_proxy_total : ∀ (pool : List String) (k : Nat),
    (ConfigEndpoints.get_proxy pool k = none ↔ pool = []) ∧
    (CoreProxyManager.get_proxy pool k = none ↔ pool = []) ∧
    (∀ x, ConfigEndpoints.get_proxy pool k = some x → x ∈ pool) ∧
    (∀ x, CoreProxyManager.get_proxy pool k = some x → x ∈ pool) := by
  intro pool k
  by_cases hp : pool = []
  · subst hp
    refine ⟨by simp [ConfigEndpoints.get_proxy], by simp [CoreProxyManager.get_proxy], ?_, ?_⟩
    · intro x hx
      simp [ConfigEndpoints.get_proxy] at hx
    · intro x hx
      simp [CoreProxyManager.get_proxy] at hx
  · have hlen : k % pool.length < pool.length :=
      Nat.mod_lt _ (List.length_pos.mpr hp)
    have he : ConfigEndpoints.get_proxy pool k = pool.get? (k % pool.length) := by
      simp [ConfigEndpoints.get_proxy, List.isEmpty_iff, hp]
    have hc : CoreProxyManager.get_proxy pool k = pool.get? (k % pool.length) := by
      simp [CoreProxyManager.get_proxy, hp]
    have hnn : pool.get? (k % pool.length) ≠ none := by
      rw [Ne, List.get?_eq_none]
      omega
    refine ⟨?_, ?_, ?_, ?_⟩
    · rw [he]
      exact ⟨fun h => absurd h hnn, fun h => absurd h hp⟩
    · rw [hc]
      exact ⟨fun h => absurd h hnn, fun h => absurd h hp⟩
    · intro x hx
      rw [he] at hx
      exact List.get?_mem hx
    · intro x hx
      rw [hc] at hx
      exact List.get?_mem hx

/-- C10 witness: on a one-element pool both accessors return that element, which is a
member of the pool. -/
theorem C10_get_proxy_total_witness :
    (ConfigEndpoints.get_proxy ["http://198.51.100.4:3128"] 0
        = some "http://198.51.100.4:3128" ∧
      "http://198.51.100.4:3128" ∈ ["http://198.51.100.4:3128"]) ∧
    (CoreProxyManager.get_proxy ["http://198.51.100.4:3128"] 0
        = some "http://198.51.100.4:3128" ∧
      "http://198.51.100.4:3128" ∈ ["http://198.51.100.4:3128"]) :=
  ⟨⟨rfl, (C10_get_proxy_total ["http://198.51.100.4:3128"] 0).2.2.1 _ rfl⟩,
    ⟨rfl, (C10_get_proxy_total ["http://198.51.100.4:3128"] 0).2.2.2 _ rfl⟩⟩

/-! ## C6: parse strategy interplay -/

lemma parse_foldl_all_match (tds : List String) :
    ∀ (lines : List String) (acc : List (String × Nat)),
      (∀ line ∈ lines, (matchIpPort (stripStr line)).isSome) →
      lines.foldl (parseLineStep tds) acc
        = acc ++ lines.filterMap (fun l => matchIpPort (stripStr l)) := by
  intro lines
  induction lines with
  | nil => intro acc _; simp
  | cons l ls ih =>
    intro acc h
    have hl := h l (List.mem_cons_self l ls)
    obtain ⟨hp, hhp⟩ := Option.isSome_iff_exists.mp hl
    have hstep : parseLineStep tds acc l = acc ++ [hp] := by
      simp [parseLineStep, hhp]
    simp only [List.foldl_cons, List.filterMap_cons, hhp, hstep]
    rw [ih (acc ++ [hp]) (fun line hm => h line (List.mem_cons_of_mem _ hm))]
    simp

/-- C6 counterexample: on content mixing a tabular row and a plain line for the same
pair, `parse_proxy_list` produces that pair twice — once from the tabular pass
triggered by the non-matching first line, once from the plain pass on the second line.
The first two conjuncts show which strategy handles which line, refuting both halves
of the claim: the tabular extraction runs even though the plain pass over the content
yields a match, and the same pair is produced by both strategies. -/
theorem C6_counterexample :
    matchIpPort (stripStr "<td>1.2.3.4:80</td>") = none ∧
    matchIpPort (stripStr "1.2.3.4:80") = some ("1.2.3.4", 80) ∧
    parse_proxy_list ["<td>1.2.3.4:80</td>", "1.2.3.4:80"] ["1.2.3.4:80"]
      = [("1.2.3.4", 80), ("1.2.3.4", 80)] := by
  decide

/-- C6 amended: the tabular extraction is consulted per line, only for lines that fail
the plain `IPv4:port` prefix match.  In particular, when every line of the content
matches the plain pattern, the result is exactly the per-line plain matches and is
independent of any tabular content; but when a non-matching line precedes a plain line
carrying a pair also present in the tabular view, the pair is produced by both
strategies (see the counterexample), so cross-strategy deduplication does not hold in
general. -/
theorem C6_parse_amended : ∀ (lines tds : List String),
    (∀ line ∈ lines, (matchIpPort (stripStr line)).isSome) →
    parse_proxy_list lines tds
      = lines.filterMap (fun l => matchIpPort (stripStr l)) := by
  intro lines tds h
  unfold parse_proxy_list
  rw [parse_foldl_all_match tds lines [] h]
  simp

/-- C6 amended witness: all-plain content parses to its matches, untouched by a
tabular view that carries a different pair. -/
theorem C6_parse_amended_witness :
    (∀ line ∈ ["1.2.3.4:80", "5.6.7.8:3128"], (matchIpPort (stripStr line)).isSome) ∧
    parse_proxy_list ["1.2.3.4:80", "5.6.7.8:3128"] ["9.9.9.9:99"]
      = [("1.2.3.4", 80), ("5.6.7.8", 3128)] :=
  ⟨by decide,
    (C6_parse_amended ["1.2.3.4:80", "5.6.7.8:3128"] ["9.9.9.9:99"] (by decide)).trans
      (by decide)⟩

/-! ## C7: persistence promotion -/

lemma mem_listInsert_self (a : String) (l : List String) : a ∈ listInsert a l := by
  unfold listInsert
  split
  · next h => exact h
  · exact List.mem_append_right _ (List.mem_singleton.mpr rfl)

lemma speedCategorize_preserve (st : VFState) (p : PxDict) :
    (speedCategorize st p).persistence_counter = st.persistence_counter ∧
    (speedCategorize st p).persistent_proxies = st.persistent_proxies := by
  unfold speedCategorize
  dsimp only
  split_ifs <;> exact ⟨rfl, rfl⟩

lemma reliabilityCategorize_preserve (st : VFState) (p : PxDict) :
    (reliabilityCategorize st p).persistence_counter = st.persistence_counter ∧
    (reliabilityCategorize st p).persistent_proxies = st.persistent_proxies := by
  unfold reliabilityCategorize
  dsimp only
  split_ifs <;> exact ⟨rfl, rfl⟩

lemma stealthCategorize_preserve (st : VFState) (p : PxDict) :
    (stealthCategorize st p).persistence_counter = st.persistence_counter ∧
    (stealthCategorize st p).persistent_proxies = st.persistent_proxies := by
  unfold stealthCategorize
  dsimp only
  split_ifs <;> exact ⟨rfl, rfl⟩

lemma precats_preserve (st : VFState) (p : PxDict) :
    (stealthCategorize (reliabilityCategorize (speedCategorize st p) p) p).persistence_counter
        = st.persistence_counter ∧
    (stealthCategorize (reliabilityCategorize (speedCategorize st p) p) p).persistent_proxies
        = st.persistent_proxies := by
  have h1 := speedCategorize_preserve st p
  have h2 := reliabilityCategorize_preserve (speedCategorize st p) p
  have h3 := stealthCategorize_preserve (reliabilityCategorize (speedCategorize st p) p) p
  exact ⟨h3.1.trans (h2.1.trans h1.1), h3.2.trans (h2.2.trans h1.2)⟩

lemma persistenceTrack_counter_self (st : VFState) (p : PxDict) :
    (persistenceTrack st p).persistence_counter (pxAddress p)
      = st.persistence_counter (pxAddress p) + 1 := by
  unfold persistenceTrack
  dsimp only
  split_ifs <;> simp

lemma persistenceTrack_persistent_of_lt (st : VFState) (p : PxDict)
    (h : st.persistence_counter (pxAddress p) + 1 < 3) :
    (persistenceTrack st p).persistent_proxies = st.persistent_proxies := by
  unfold persistenceTrack
  dsimp only
  rw [if_neg (by omega)]

lemma persistenceTrack_persistent_of_ge (st : VFState) (p : PxDict)
    (h : 3 ≤ st.persistence_counter (pxAddress p) + 1) :
    pxAddress p ∈ (persistenceTrack st p).persistent_proxies := by
  unfold persistenceTrack
  dsimp only
  rw [if_pos h]
  split_ifs <;> exact mem_listInsert_self _ _

lemma categorize_counter_self (st : VFState) (p : PxDict) :
    (categorize_proxy st p).persistence_counter (pxAddress p)
      = st.persistence_counter (pxAddress p) + 1 := by
  unfold categorize_proxy
  rw [persistenceTrack_counter_self, (precats_preserve st p).1]

lemma categorize_persistent_of_lt (st : VFState) (p : PxDict)
    (h : st.persistence_counter (pxAddress p) + 1 < 3) :
    (categorize_proxy st p).persistent_proxies = st.persistent_proxies := by
  unfold categorize_proxy
  rw [persistenceTrack_persistent_of_lt _ p (by rw [(precats_preserve st p).1]; exact h),
      (precats_preserve st p).2]

lemma categorize_persistent_of_ge (st : VFState) (p : PxDict)
    (h : 3 ≤ st.persistence_counter (pxAddress p) + 1) :
    pxAddress p ∈ (categorize_proxy st p).persistent_proxies := by
  unfold categorize_proxy
  exact persistenceTrack_persistent_of_ge _ p (by rw [(precats_preserve st p).1]; exact h)

/-- C7: starting from a state in which a proxy's persistence counter is zero and it is
not yet persistent, appearing in exactly 3 consecutive categorization ticks marks it
persistent, while appearing in only 2 does not. -/
theorem C7_persistence_promotion : ∀ (st : VFState) (p : PxDict),
    st.persistence_counter (pxAddress p) = 0 →
    pxAddress p ∉ st.persistent_proxies →
    pxAddress p ∈
      (categorize_proxy (categorize_proxy (categorize_proxy st p) p) p).persistent_proxies ∧
    pxAddress p ∉ (categorize_proxy (categorize_proxy st p) p).persistent_proxies := by
  intro st p h0 hnot
  have c1 : (categorize_proxy st p).persistence_counter (pxAddress p) = 1 := by
    rw [categorize_counter_self, h0]
  have c2 : (categorize_proxy (categorize_proxy st p) p).persistence_counter (pxAddress p)
      = 2 := by
    rw [categorize_counter_self, c1]
  have p1 : (categorize_proxy st p).persistent_proxies = st.persistent_proxies :=
    categorize_persistent_of_lt st p (by omega)
  have p2 : (categorize_proxy (categorize_proxy st p) p).persistent_proxies
      = st.persistent_proxies := by
    rw [categorize_persistent_of_lt _ p (by omega), p1]
  refine ⟨categorize_persistent_of_ge _ p (by omega), ?_⟩
  rw [p2]
  exact hnot

/-- C7 witness: a concrete proxy categorized three times from the initial formatter
state becomes persistent, and after only two ticks it is not. -/
theorem C7_persistence_promotion_witness :
    viewbotInit.persistence_counter (pxAddress ⟨"203.0.113.5", 8080, some 300, some 90, some "high"⟩) = 0 ∧
    pxAddress ⟨"203.0.113.5", 8080, some 300, some 90, some "high"⟩ ∉ viewbotInit.persistent_proxies ∧
    (pxAddress ⟨"203.0.113.5", 8080, some 300, some 90, some "high"⟩ ∈
      (categorize_proxy (categorize_proxy (categorize_proxy viewbotInit
          ⟨"203.0.113.5", 8080, some 300, some 90, some "high"⟩)
          ⟨"203.0.113.5", 8080, some 300, some 90, some "high"⟩)
          ⟨"203.0.113.5", 8080, some 300, some 90, some "high"⟩).persistent_proxies ∧
     pxAddress ⟨"203.0.113.5", 8080, some 300, some 90, some "high"⟩ ∉
      (categorize_proxy (categorize_proxy viewbotInit
          ⟨"203.0.113.5", 8080, some 300, some 90, some "high"⟩)
          ⟨"203.0.113.5", 8080, some 300, some 90, some "high"⟩).persistent_proxies) :=
  ⟨rfl, List.not_mem_nil _,
    C7_persistence_promotion viewbotInit ⟨"203.0.113.5", 8080, some 300, some 90, some "high"⟩
      rfl (List.not_mem_nil _)⟩

/-! ## C4: verified-set invariant -/

lemma lookupRec_append_some {ps : List (String × ProxyRec)} {a : String} {r : ProxyRec}
    (h : lookupRec ps a = some r) (qs : List (String × ProxyRec)) :
    lookupRec (ps ++ qs) a = some r := by
  induction ps with
  | nil => simp [lookupRec] at h
  | cons kv rest ih =>
    by_cases hk : kv.1 = a
    · simp only [lookupRec, hk, if_pos] at h
      simp only [List.cons_append, lookupRec, hk, if_pos]
      exact h
    · simp only [lookupRec, hk, if_neg, ite_false] at h
      simp only [List.cons_append, lookupRec, hk, ite_false]
      exact ih h

lemma lookupRec_append_none_self {ps : List (String × ProxyRec)} {a : String}
    (h : lookupRec ps a = none) (r : ProxyRec) :
    lookupRec (ps ++ [(a, r)]) a = some r := by
  induction ps with
  | nil => simp [lookupRec]
  | cons kv rest ih =>
    by_cases hk : kv.1 = a
    · simp [lookupRec, hk] at h
    · simp only [lookupRec, hk, ite_false] at h
      simp only [List.cons_append, lookupRec, hk, ite_false]
      exact ih h

lemma lookupRec_update_self {ps : List (String × ProxyRec)} {a : String}
    (h : (lookupRec ps a).isSome) (r : ProxyRec) :
    lookupRec (updateRec ps a r) a = some r := by
  induction ps with
  | nil => simp [lookupRec] at h
  | cons kv rest ih =>
    by_cases hk : kv.1 = a
    · simp [updateRec, hk, lookupRec]
    · simp only [lookupRec, hk, ite_false] at h
      simp only [updateRec, hk, ite_false, lookupRec]
      exact ih h

lemma lookupRec_update_other {ps : List (String × ProxyRec)} {a x : String}
    (h : x ≠ a) (r : ProxyRec) :
    lookupRec (updateRec ps a r) x = lookupRec ps x := by
  induction ps with
  | nil => simp [updateRec, lookupRec]
  | cons kv rest ih =>
    by_cases hk : kv.1 = a
    · have hx : ¬a = x := fun hc => h hc.symm
      simp [updateRec, hk, lookupRec, hx]
    · simp only [updateRec, hk, ite_false, lookupRec]
      by_cases hkx : kv.1 = x
      · simp [hkx]
      · simp [hkx, ih]

lemma lookupRec_map (f : ProxyRec → ProxyRec) (ps : List (String × ProxyRec)) (a : String) :
    lookupRec (ps.map (fun kv => (kv.1, f kv.2))) a = (lookupRec ps a).map f := by
  induction ps with
  | nil => simp [lookupRec]
  | cons kv rest ih =>
    by_cases hk : kv.1 = a
    · simp [lookupRec, hk]
    · simp [lookupRec, hk, ih]

lemma lookupRec_isSome_of_mem {ps : List (String × ProxyRec)} {kv : String × ProxyRec}
    (h : kv ∈ ps) : (lookupRec ps kv.1).isSome := by
  induction ps with
  | nil => exact absurd h (List.not_mem_nil kv)
  | cons hd rest ih =>
    by_cases hk : hd.1 = kv.1
    · simp [lookupRec, hk]
    · rcases List.mem_cons.mp h with hh | hh
      · exact absurd (congrArg Prod.fst hh.symm) hk
      · simp only [lookupRec, hk, ite_false]
        exact ih hh

/-- States the inductive invariant behind the amended C4: every verified address has a
registry record whose `ever_usable` ghost flag is set (it passed the test that added
it), and every queued address is registered. -/
def ScanInv (s : ScanState) : Prop :=
  (∀ a ∈ s.verified, ∃ r, lookupRec s.proxies a = some r ∧ r.ever_usable = true) ∧
  (∀ a ∈ s.queue, (lookupRec s.proxies a).isSome)

lemma scanInv_init : ScanInv scanInit :=
  ⟨fun a ha => absurd ha (List.not_mem_nil a), fun a ha => absurd ha (List.not_mem_nil a)⟩

lemma scanInv_step (interval : Int) (s : ScanState) (op : ScanOp) (h : ScanInv s) :
    ScanInv (scanStep interval s op) := by
  obtain ⟨hv, hq⟩ := h
  cases op with
  | register address now =>
    simp only [scanStep]
    split
    · exact ⟨hv, hq⟩
    · next hnone =>
      have hn : lookupRec s.proxies address = none := by
        cases hl : lookupRec s.proxies address with
        | none => rfl
        | some r => rw [hl] at hnone; simp at hnone
      constructor
      · intro a ha
        obtain ⟨r, hr, he⟩ := hv a ha
        exact ⟨r, lookupRec_append_some hr _, he⟩
      · intro a ha
        rcases List.mem_append.mp ha with h1 | h2
        · obtain ⟨r, hr⟩ := Option.isSome_iff_exists.mp (hq a h1)
          rw [lookupRec_append_some hr]
          rfl
        · rw [List.mem_singleton.mp h2, lookupRec_append_none_self hn]
          rfl
  | processNext usable now =>
    rcases hqm : s.queue with _ | ⟨address, rest⟩
    · simp only [scanStep, hqm]
      exact ⟨hv, fun a ha => absurd (hqm ▸ ha) (List.not_mem_nil a)⟩
    · have haddr : (lookupRec s.proxies address).isSome :=
        hq address (by rw [hqm]; exact List.mem_cons_self _ _)
      obtain ⟨r0, hr0⟩ := Option.isSome_iff_exists.mp haddr
      have hqrest : ∀ a ∈ rest, (lookupRec s.proxies a).isSome := fun a ha =>
        hq a (by rw [hqm]; exact List.mem_cons_of_mem _ ha)
      cases usable with
      | true =>
        simp only [scanStep, hqm, hr0, if_pos]
        constructor
        · intro a ha
          by_cases hax : a = address
          · subst hax
            exact ⟨_, lookupRec_update_self haddr _, by simp⟩
          · have ha' : a ∈ s.verified := by
              unfold listInsert at ha
              by_cases hmem : address ∈ s.verified
              · rwa [if_pos hmem] at ha
              · rw [if_neg hmem] at ha
                rcases List.mem_append.mp ha with h1 | h2
                · exact h1
                · exact absurd (List.mem_singleton.mp h2) hax
            obtain ⟨r, hr, he⟩ := hv a ha'
            rw [lookupRec_update_other hax]
            exact ⟨r, hr, he⟩
        · intro a ha
          by_cases hax : a = address
          · subst hax
            rw [lookupRec_update_self haddr]
            rfl
          · rw [lookupRec_update_other hax]
            exact hqrest a ha
      | false =>
        simp only [scanStep, hqm, hr0]
        rw [if_neg Bool.false_ne_true]
        constructor
        · intro a ha
          obtain ⟨r, hr, he⟩ := hv a ha
          by_cases hax : a = address
          · subst hax
            have hrr : r = r0 := Option.some.inj (hr.symm.trans hr0)
            refine ⟨_, lookupRec_update_self haddr _, ?_⟩
            simp [← hrr, he]
          · rw [lookupRec_update_other hax]
            exact ⟨r, hr, he⟩
        · intro a ha
          by_cases hax : a = address
          · subst hax
            rw [lookupRec_update_self haddr]
            rfl
          · rw [lookupRec_update_other hax]
            exact hqrest a ha
  | requeueScan now =>
    simp only [scanStep]
    constructor
    · intro a ha
      obtain ⟨r, hr, he⟩ := hv a ha
      refine ⟨requeueRec interval now r, ?_, ?_⟩
      · rw [lookupRec_map, hr]
        rfl
      · unfold requeueRec
        split <;> exact he
    · intro a ha
      rcases List.mem_append.mp ha with h1 | h2
      · obtain ⟨r, hr⟩ := Option.isSome_iff_exists.mp (hq a h1)
        rw [lookupRec_map, hr]
        rfl
      · obtain ⟨kv, hkv, hfst⟩ := List.mem_map.mp h2
        have hkv' : kv ∈ s.proxies := List.mem_of_mem_filter hkv
        obtain ⟨r, hr⟩ := Option.isSome_iff_exists.mp (lookupRec_isSome_of_mem hkv')
        rw [← hfst, lookupRec_map, hr]
        rfl
  | exportClear =>
    simp only [scanStep]
    exact ⟨fun a ha => absurd ha (List.not_mem_nil a), hq⟩

lemma scanInv_run (interval : Int) (ops : List ScanOp) : ScanInv (scanRun interval ops) := by
  unfold scanRun
  suffices h : ∀ s : ScanState, ScanInv s → ScanInv (ops.foldl (scanStep interval) s) from
    h scanInit scanInv_init
  induction ops with
  | nil => exact fun s hs => hs
  | cons op rest ih => exact fun s hs => ih _ (scanInv_step interval s op hs)

/-- C4 counterexample: after registering one proxy, having it pass a test, requeueing
it once the refresh interval has elapsed, and having the retest fail, the address is
still in the verified set although its most recent test reported `is_usable = false`
(the ghost field `last_test_usable` records the verdict of the most recent completed
test) — the worker never removes a failing proxy from `verified_proxies`.  The final
conjunct shows the export path masks this by filtering to currently-usable records. -/
theorem C4_counterexample :
    "198.51.100.7:3128" ∈ (scanRun 300
      [ScanOp.register "198.51.100.7:3128" 0, ScanOp.processNext true 10,
       ScanOp.requeueScan 400, ScanOp.processNext false 410]).verified ∧
    (lookupRec (scanRun 300
      [ScanOp.register "198.51.100.7:3128" 0, ScanOp.processNext true 10,
       ScanOp.requeueScan 400, ScanOp.processNext false 410]).proxies
      "198.51.100.7:3128").map ProxyRec.last_test_usable = some false ∧
    (lookupRec (scanRun 300
      [ScanOp.register "198.51.100.7:3128" 0, ScanOp.processNext true 10,
       ScanOp.requeueScan 400, ScanOp.processNext false 410]).proxies
      "198.51.100.7:3128").map ProxyRec.is_usable = some false ∧
    export_results (scanRun 300
      [ScanOp.register "198.51.100.7:3128" 0, ScanOp.processNext true 10,
       ScanOp.requeueScan 400, ScanOp.processNext false 410]) = [] := by
  decide

/-- C4 amended: between any sequence of pool-manager operations started from the
initial state, the verified set is a subset of the registry, and every member passed
the test that added it (ghost flag `ever_usable`); membership is, however, not revoked
when a later retest fails, so usable-at-the-most-recent-test does not hold (see the
counterexample) and the export path filters to currently-usable members instead. -/
theorem C4_verified_subset_amended : ∀ (interval : Int) (ops : List ScanOp) (address : String),
    address ∈ (scanRun interval ops).verified →
    ∃ r, lookupRec (scanRun interval ops).proxies address = some r ∧ r.ever_usable = true :=
  fun interval ops address h => (scanInv_run interval ops).1 address h

/-- C4 amended witness: a registered proxy that passes its test is in the verified set
and has a registered record that passed a test. -/
theorem C4_verified_subset_amended_witness :
    "198.51.100.7:3128" ∈ (scanRun 300
      [ScanOp.register "198.51.100.7:3128" 0, ScanOp.processNext true 10]).verified ∧
    ∃ r, lookupRec (scanRun 300
      [ScanOp.register "198.51.100.7:3128" 0, ScanOp.processNext true 10]).proxies
      "198.51.100.7:3128" = some r ∧ r.ever_usable = true :=
  ⟨by decide,
    C4_verified_subset_amended 300
      [ScanOp.register "198.51.100.7:3128" 0, ScanOp.processNext true 10]
      "198.51.100.7:3128" (by decide)⟩
